import Mathlib

/-!
Verification of `linbox/matrix/transpose.h`: the `TransposeMatrix` zero-copy
transposed view over a matrix meeting the DenseMatrixBase archetype.

The C++ component is a template class with four capability variants selected
by the capability category of the wrapped matrix type:
the generic primary template (lines 58-200), and specializations for
`MatrixCategories::RowColMatrixTag` (204-260), `RowMatrixTag` (264-313)
and `ColMatrixTag` (317-364). Every operation forwards to the wrapped
matrix with row and column arguments exchanged, and every iterator accessor
forwards to the complementary accessor of the wrapped matrix.

The shallow embedding below models the wrapped matrix as a record of
operations over an abstract state type (`MatrixArchetype`), the four
variants by a `MatrixCategory` index, and iterator ranges
(`rowBegin()..rowEnd()` and so on) as the lists of vectors they traverse.
-/

namespace LinBox

/-- Capability categories of the capability-classification mechanism:
the closed set row-and-column, row-only, column-only, and the
unspecified/generic case in which no more specific category is known
(the primary template of `TransposeMatrix` is used). -/
inductive MatrixCategory where
  | RowColMatrixTag
  | RowMatrixTag
  | ColMatrixTag
  | Unspecified
deriving DecidableEq, Repr

/-- The operation surface of the DenseMatrixBase archetype that
`TransposeMatrix` forwards to, over an abstract matrix state `σ` with
element type `E`, row-vector type `R` and column-vector type `C`.
Mutation is modelled by explicit state passing; `getEntry` takes the
current value of the out-parameter `x` and returns the boolean result
together with the value of `x` after the call; the iterator ranges
`rowBegin()..rowEnd()`, `colBegin()..colEnd()`, `rawBegin()..rawEnd()`
and `rawIndexedBegin()..rawIndexedEnd()` are modelled as the lists of
elements they traverse, a raw indexed element carrying its
`rowIndex ()` and `colIndex ()` alongside the entry. -/
structure MatrixArchetype (σ E R C : Type) where
  rowdim : σ → Nat
  coldim : σ → Nat
  setEntry : σ → Nat → Nat → E → σ
  eraseEntry : σ → Nat → Nat → σ
  getEntry : σ → E → Nat → Nat → Bool × E
  rows : σ → List R
  cols : σ → List C
  raw : σ → List E
  rawIndexed : σ → List (Nat × Nat × E)

namespace TransposeMatrix

/-- The generic variant of `TransposeMatrix` (primary template,
transpose.h lines 58-200): every operation of the archetype delegated to
the wrapped matrix `M` with indices exchanged, row iteration delegated to
column iteration of `M` and conversely (typedefs at lines 66-77:
`RowIterator = Matrix::ColIterator`, `Row = Matrix::Col`, and so on),
raw and raw indexed iteration delegated unchanged (lines 177-193). -/
def ops (M : MatrixArchetype σ E R C) : MatrixArchetype σ E C R where
  rowdim s := M.coldim s
  coldim s := M.rowdim s
  setEntry s i j a := M.setEntry s j i a
  eraseEntry s i j := M.eraseEntry s j i
  getEntry s x i j := M.getEntry s x j i
  rows s := M.cols s
  cols s := M.rows s
  raw s := M.raw s
  rawIndexed s := M.rawIndexed s

/-- The member `rowdim` of each of the four variants
(transpose.h lines 105, 231, 289, 340): each body is
`return _A.coldim ()`. -/
def rowdim (c : MatrixCategory) (M : MatrixArchetype σ E R C) (s : σ) : Nat :=
  match c with
  | .Unspecified => M.coldim s
  | .RowColMatrixTag => M.coldim s
  | .RowMatrixTag => M.coldim s
  | .ColMatrixTag => M.coldim s

/-- The member `coldim` of each of the four variants
(transpose.h lines 111, 232, 290, 341): each body is
`return _A.rowdim ()`. -/
def coldim (c : MatrixCategory) (M : MatrixArchetype σ E R C) (s : σ) : Nat :=
  match c with
  | .Unspecified => M.rowdim s
  | .RowColMatrixTag => M.rowdim s
  | .RowMatrixTag => M.rowdim s
  | .ColMatrixTag => M.rowdim s

/-- The member `setEntry (i, j, a_ij)` of each of the four variants
(transpose.h lines 124, 234, 292, 343): each body is
`_A.setEntry (j, i, a_ij)`. -/
def setEntry (c : MatrixCategory) (M : MatrixArchetype σ E R C)
    (s : σ) (i j : Nat) (a : E) : σ :=
  match c with
  | .Unspecified => M.setEntry s j i a
  | .RowColMatrixTag => M.setEntry s j i a
  | .RowMatrixTag => M.setEntry s j i a
  | .ColMatrixTag => M.setEntry s j i a

/-- The member `getEntry (x, i, j)` of each of the four variants
(transpose.h lines 144, 235, 293, 344): each body is
`return _A.getEntry (x, j, i)`. -/
def getEntry (c : MatrixCategory) (M : MatrixArchetype σ E R C)
    (s : σ) (x : E) (i j : Nat) : Bool × E :=
  match c with
  | .Unspecified => M.getEntry s x j i
  | .RowColMatrixTag => M.getEntry s x j i
  | .RowMatrixTag => M.getEntry s x j i
  | .ColMatrixTag => M.getEntry s x j i

/-- The member `eraseEntry (i, j)` of the generic variant
(transpose.h lines 133-134): `_A.eraseEntry (j, i)`. The three
specialized variants declare no such member. -/
def eraseEntry (M : MatrixArchetype σ E R C) (s : σ) (i j : Nat) : σ :=
  M.eraseEntry s j i

/-- The declared capability category of a `TransposeMatrix` variant, as a
function of the category of the wrapped matrix. The specializations declare
it by typedef: `RowColMatrixTag` maps to itself (transpose.h line 211), a
wrapped `RowMatrixTag` matrix yields a `ColMatrixTag` view (line 271), a
wrapped `ColMatrixTag` matrix yields a `RowMatrixTag` view (line 324).
Modelled from the spec for the generic case: the primary template declares
no `MatrixCategory` typedef, which the capability-classification
mechanism (not part of this source) treats as the unspecified category,
so unspecified maps to unspecified. -/
def category (c : MatrixCategory) : MatrixCategory :=
  match c with
  | .RowColMatrixTag => .RowColMatrixTag
  | .RowMatrixTag => .ColMatrixTag
  | .ColMatrixTag => .RowMatrixTag
  | .Unspecified => .Unspecified

end TransposeMatrix

/-- The set of members a matrix-shaped class exposes: the entry accessors
`setEntry`, `getEntry`, `eraseEntry`, and the four iterator-accessor
families `rowBegin/rowEnd`, `colBegin/colEnd`, `rawBegin/rawEnd`,
`rawIndexedBegin/rawIndexedEnd`. -/
structure InterfaceSurface where
  hasSetEntry : Bool
  hasGetEntry : Bool
  hasEraseEntry : Bool
  hasRowIter : Bool
  hasColIter : Bool
  hasRawIter : Bool
  hasRawIndexedIter : Bool
deriving DecidableEq, Repr

namespace TransposeMatrix

/-- The members declared by each `TransposeMatrix` variant, read off the
four class bodies of transpose.h. The generic variant (lines 58-200)
declares all of `setEntry`, `getEntry`, `eraseEntry`, `rowBegin/rowEnd`,
`colBegin/colEnd`, `rawBegin/rawEnd`, `rawIndexedBegin/rawIndexedEnd`.
The `RowColMatrixTag` specialization (204-260) declares all of these
except `eraseEntry`. The `RowMatrixTag` specialization (264-313) declares
`setEntry`, `getEntry`, `colBegin/colEnd` and the raw accessors, but no
`eraseEntry` and no `rowBegin/rowEnd`. The `ColMatrixTag` specialization
(317-364) declares `setEntry`, `getEntry`, `rowBegin/rowEnd` and the raw
accessors, but no `eraseEntry` and no `colBegin/colEnd`. -/
def surface (c : MatrixCategory) : InterfaceSurface :=
  match c with
  | .Unspecified => ⟨true, true, true, true, true, true, true⟩
  | .RowColMatrixTag => ⟨true, true, false, true, true, true, true⟩
  | .RowMatrixTag => ⟨true, true, false, false, true, true, true⟩
  | .ColMatrixTag => ⟨true, true, false, true, false, true, true⟩

end TransposeMatrix

/-- Modelled from the spec: whether a wrapped matrix of a given capability
category exposes row iteration. The matrix implementations and the
capability-classification mechanism are external collaborators, absent
from this source; per the spec, the row-and-column category and the
row-only category expose row iteration, the column-only category does
not, and the unspecified/generic category covers matrices exposing the
full interface. -/
def categoryHasRowIter (c : MatrixCategory) : Bool :=
  match c with
  | .RowColMatrixTag => true
  | .RowMatrixTag => true
  | .ColMatrixTag => false
  | .Unspecified => true

/-- Modelled from the spec: whether a wrapped matrix of a given capability
category exposes column iteration, symmetrically to
`categoryHasRowIter`. -/
def categoryHasColIter (c : MatrixCategory) : Bool :=
  match c with
  | .RowColMatrixTag => true
  | .RowMatrixTag => false
  | .ColMatrixTag => true
  | .Unspecified => true

/-- Modelled from the spec: a sparse matrix implementation meeting the
archetype, absent from this source (only its interface boundary is
specified). It stores only explicit entries, as an association list of
row index, column index and value, alongside its dimensions. -/
structure SparseMat (E : Type) where
  m : Nat
  n : Nat
  entries : List (Nat × Nat × E)
deriving Repr

namespace SparseMat

/-- Modelled from the spec: sparse `getEntry (x, i, j)` returns true and
stores the value in `x` when an explicit entry is present at `(i, j)`,
and returns false leaving `x` unmodified otherwise. -/
def getEntry (A : SparseMat E) (x : E) (i j : Nat) : Bool × E :=
  match A.entries.find? (fun e => e.1 == i && e.2.1 == j) with
  | some e => (true, e.2.2)
  | none => (false, x)

/-- Modelled from the spec: sparse `setEntry (i, j, v)` stores `v` as the
explicit entry at `(i, j)`, replacing any previous entry there. -/
def setEntry (A : SparseMat E) (i j : Nat) (v : E) : SparseMat E :=
  ⟨A.m, A.n, (i, j, v) :: A.entries.filter (fun e => !(e.1 == i && e.2.1 == j))⟩

/-- Modelled from the spec: sparse `eraseEntry (i, j)` removes the stored
entry at `(i, j)` if present, and takes no action if absent. -/
def eraseEntry (A : SparseMat E) (i j : Nat) : SparseMat E :=
  ⟨A.m, A.n, A.entries.filter (fun e => !(e.1 == i && e.2.1 == j))⟩

/-- Modelled from the spec: the rows of a sparse matrix, traversed in
ascending row order, each row the list of its explicit entries as
column-index and value pairs. -/
def rowsOf (A : SparseMat E) : List (List (Nat × E)) :=
  (List.range A.m).map (fun i =>
    (A.entries.filter (fun e => e.1 == i)).map (fun e => (e.2.1, e.2.2)))

/-- Modelled from the spec: the columns of a sparse matrix, traversed in
ascending column order, each column the list of its explicit entries as
row-index and value pairs. -/
def colsOf (A : SparseMat E) : List (List (Nat × E)) :=
  (List.range A.n).map (fun j =>
    (A.entries.filter (fun e => e.2.1 == j)).map (fun e => (e.1, e.2.2)))

/-- Modelled from the spec: the sparse matrix implementation packaged as
an archetype instance; raw iteration traverses the explicit entries in
storage order, indexed raw iteration additionally reporting the stored
row and column indices. -/
def ops (E : Type) : MatrixArchetype (SparseMat E) E (List (Nat × E)) (List (Nat × E)) where
  rowdim A := A.m
  coldim A := A.n
  setEntry := SparseMat.setEntry
  eraseEntry := SparseMat.eraseEntry
  getEntry := SparseMat.getEntry
  rows := rowsOf
  cols := colsOf
  raw A := A.entries.map (fun e => e.2.2)
  rawIndexed A := A.entries

end SparseMat

/-- Modelled from the spec: a dense matrix implementation meeting the
archetype, absent from this source. It stores an explicit value for
every position, modelled as a total function on index pairs alongside
the dimensions. -/
structure DenseMat (E : Type) where
  m : Nat
  n : Nat
  data : Nat → Nat → E

namespace DenseMat

/-- Modelled from the spec: dense `getEntry (x, i, j)` always returns
true and stores the value at `(i, j)` in `x`. -/
def getEntry (A : DenseMat E) (_x : E) (i j : Nat) : Bool × E :=
  (true, A.data i j)

/-- Modelled from the spec: dense `setEntry (i, j, v)` overwrites the
value at `(i, j)` with `v`. -/
def setEntry (A : DenseMat E) (i j : Nat) (v : E) : DenseMat E :=
  ⟨A.m, A.n, fun a b => if a = i then (if b = j then v else A.data a b) else A.data a b⟩

/-- Modelled from the spec (and the documentation of `eraseEntry` at
transpose.h lines 127-129): on a dense matrix, `eraseEntry` takes no
action and the value is retained unchanged. -/
def eraseEntry (A : DenseMat E) (_i _j : Nat) : DenseMat E :=
  A

/-- Modelled from the spec: a dense row, in dense format, as the list of
its values in ascending column order. -/
def rowAt (A : DenseMat E) (i : Nat) : List E :=
  (List.range A.n).map (fun j => A.data i j)

/-- Modelled from the spec: a dense column, in dense format, as the list
of its values in ascending row order. -/
def colAt (A : DenseMat E) (j : Nat) : List E :=
  (List.range A.m).map (fun i => A.data i j)

/-- Modelled from the spec: the dense matrix implementation packaged as
an archetype instance; rows and columns are traversed in ascending
order, raw iteration traverses all positions row by row, and indexed
raw iteration additionally reports each position. -/
def ops (E : Type) : MatrixArchetype (DenseMat E) E (List E) (List E) where
  rowdim A := A.m
  coldim A := A.n
  setEntry := DenseMat.setEntry
  eraseEntry := DenseMat.eraseEntry
  getEntry := DenseMat.getEntry
  rows A := (List.range A.m).map (rowAt A)
  cols A := (List.range A.n).map (colAt A)
  raw A := ((List.range A.m).map (fun i => rowAt A i)).flatten
  rawIndexed A :=
    ((List.range A.m).map (fun i =>
      (List.range A.n).map (fun j => (i, j, A.data i j)))).flatten

end DenseMat

/-- A store of matrix objects, assigning a matrix state to each address;
a C++ reference `Matrix &` is modelled as an address into the store. -/
def Store (σ : Type) : Type :=
  Nat → σ

/-- A `TransposeMatrix` object as it exists at run time: its only data
member is the reference `_A` to the underlying matrix
(transpose.h line 199), modelled as the address of that matrix in a
store. The view owns no storage of its own. -/
structure View where
  refA : Nat
deriving DecidableEq, Repr

namespace View

/-- The constructor `TransposeMatrix (Matrix &A) : _A (A)`
(transpose.h lines 92-94): the view binds its reference to the given
matrix object. -/
def ofMatrix (a : Nat) : View :=
  ⟨a⟩

/-- The copy constructor `TransposeMatrix (const TransposeMatrix &M) :
_A (M._A)` (transpose.h lines 98-100): the new view binds its reference
to the same underlying matrix object the copied view references, not to
a copy of it. -/
def copy (v : View) : View :=
  ⟨v.refA⟩

/-- View `getEntry (x, i, j)` with reference semantics: reads the matrix
object the view references and delegates with indices exchanged
(transpose.h lines 144-145). -/
def getEntry (M : MatrixArchetype σ E R C) (v : View) (st : Store σ)
    (x : E) (i j : Nat) : Bool × E :=
  M.getEntry (st v.refA) x j i

/-- View `setEntry (i, j, a_ij)` with reference semantics: mutates, in
place, the matrix object the view references, delegating with indices
exchanged (transpose.h lines 124-125); every other object in the store
is untouched. -/
def setEntry (M : MatrixArchetype σ E R C) (v : View) (st : Store σ)
    (i j : Nat) (a : E) : Store σ :=
  fun r => if r = v.refA then M.setEntry (st r) j i a else st r

end View

/-- The concrete scenario of the spec: a sparse wrapped matrix with 2
rows and 3 columns, entries at positions satisfying value 1 at row 0
column 0 and value 5 at row 1 column 2, all other entries absent. -/
def specScenario : SparseMat Nat :=
  ⟨2, 3, [(0, 0, 1), (1, 2, 5)]⟩

/-- Helper: after a sparse `eraseEntry (i, j)`, no explicit entry with
key equal to the pair of `i` and `j` remains in storage. -/
theorem SparseMat.find_after_erase (A : SparseMat E) (i j : Nat) :
    ((A.eraseEntry i j).entries.find? (fun e => e.1 == i && e.2.1 == j)) = none := by
  simp only [SparseMat.eraseEntry]
  rw [List.find?_eq_none]
  intro e he
  have h2 := (List.mem_filter.mp he).2
  simp only [Bool.not_eq_true'] at h2
  simp [h2]

/-- Helper: sparse `eraseEntry (i, j)` followed by `getEntry (x, i, j)`
returns false and leaves `x` unmodified. -/
theorem SparseMat.getEntry_after_erase (A : SparseMat E) (x : E) (i j : Nat) :
    (A.eraseEntry i j).getEntry x i j = (false, x) := by
  simp [SparseMat.getEntry, SparseMat.find_after_erase]

/-- C1: for every capability variant of the view, every wrapped matrix
and all valid indices i, j, `view.getEntry (x, i, j)` returns the same
boolean result as `wrapped.getEntry (x, j, i)` and leaves `x` in the
same state (in particular, when the result is true it stores the same
value in `x`): reading entry (i, j) through the view is the very same
call as reading entry (j, i) through the underlying matrix. -/
theorem transpose_getEntry_delegates (c : MatrixCategory)
    (M : MatrixArchetype σ E R C) (s : σ) (x : E) (i j : Nat)
    (hi : i < TransposeMatrix.rowdim c M s)
    (hj : j < TransposeMatrix.coldim c M s) :
    TransposeMatrix.getEntry c M s x i j = M.getEntry s x j i := by
  cases c <;> rfl

/-- Witness for C1 at the concrete spec scenario: reading entry (2, 1)
through the view equals reading entry (1, 2) through the wrapped sparse
matrix (both yield true with value 5). -/
theorem transpose_getEntry_delegates_witness :
    TransposeMatrix.getEntry .Unspecified (SparseMat.ops Nat) specScenario 7 2 1
      = (SparseMat.ops Nat).getEntry specScenario 7 1 2 :=
  transpose_getEntry_delegates .Unspecified (SparseMat.ops Nat) specScenario 7 2 1
    (by decide) (by decide)

/-- C2: in every capability variant, for every wrapped matrix and every
state of it, the row count of the view equals the column count of the
wrapped matrix and the column count of the view equals the row count of
the wrapped matrix; since this holds at every state, it holds for the
lifetime of the view. -/
theorem transpose_dims (c : MatrixCategory)
    (M : MatrixArchetype σ E R C) (s : σ) :
    TransposeMatrix.rowdim c M s = M.coldim s ∧
    TransposeMatrix.coldim c M s = M.rowdim s := by
  cases c <;> exact ⟨rfl, rfl⟩

/-- C3: in every capability variant, for all valid indices i, j and
every entry value v, writing (i, j) through the view is the identical
state change as writing (j, i) directly on the underlying matrix; in
particular, whenever the wrapped matrix reads back what was last
written at a position, `view.setEntry (i, j, v)` followed by
`wrapped.getEntry (x, j, i)` yields true with value v. -/
theorem transpose_setEntry_readback (c : MatrixCategory)
    (M : MatrixArchetype σ E R C) (s : σ) (x : E) (i j : Nat) (v : E)
    (hi : i < TransposeMatrix.rowdim c M s)
    (hj : j < TransposeMatrix.coldim c M s)
    (hM : M.getEntry (M.setEntry s j i v) x j i = (true, v)) :
    TransposeMatrix.setEntry c M s i j v = M.setEntry s j i v ∧
    M.getEntry (TransposeMatrix.setEntry c M s i j v) x j i = (true, v) := by
  cases c <;> exact ⟨rfl, hM⟩

/-- Witness for C3 at the concrete spec scenario:
`view.setEntry (0, 1, 9)` followed by `wrapped.getEntry (y, 1, 0)`
yields true with y equal to 9. -/
theorem transpose_setEntry_readback_witness :
    TransposeMatrix.setEntry .Unspecified (SparseMat.ops Nat) specScenario 0 1 9
      = (SparseMat.ops Nat).setEntry specScenario 1 0 9 ∧
    (SparseMat.ops Nat).getEntry
      (TransposeMatrix.setEntry .Unspecified (SparseMat.ops Nat) specScenario 0 1 9) 0 1 0
      = (true, 9) :=
  transpose_setEntry_readback .Unspecified (SparseMat.ops Nat) specScenario 0 0 1 9
    (by decide) (by decide) (by decide)

/-- Counterexample to C4 as stated: the claim asserts that every
capability variant provides `eraseEntry`, but the specialization for
wrapped matrices of category `RowColMatrixTag` (transpose.h lines
204-260) declares no `eraseEntry` member. -/
theorem rowcol_variant_no_eraseEntry :
    (TransposeMatrix.surface .RowColMatrixTag).hasEraseEntry = false :=
  rfl

/-- C4 (amended): only the generic variant provides `eraseEntry (i, j)` —
the three specialized variants declare no such member — and it delegates
to `wrapped.eraseEntry (j, i)`; through the generic variant, on a sparse
wrapped matrix `view.eraseEntry (i, j)` followed by
`view.getEntry (x, i, j)` returns false leaving `x` unmodified, and on a
dense wrapped matrix the erase is a no-op, so the same sequence leaves
the prior value retrievable. -/
theorem transpose_eraseEntry_semantics :
    (TransposeMatrix.surface .Unspecified).hasEraseEntry = true ∧
    (TransposeMatrix.surface .RowColMatrixTag).hasEraseEntry = false ∧
    (TransposeMatrix.surface .RowMatrixTag).hasEraseEntry = false ∧
    (TransposeMatrix.surface .ColMatrixTag).hasEraseEntry = false ∧
    (∀ (σ E R C : Type) (M : MatrixArchetype σ E R C) (s : σ) (i j : Nat),
      (TransposeMatrix.ops M).eraseEntry s i j = M.eraseEntry s j i) ∧
    (∀ (E : Type) (A : SparseMat E) (x : E) (i j : Nat),
      (TransposeMatrix.ops (SparseMat.ops E)).getEntry
        ((TransposeMatrix.ops (SparseMat.ops E)).eraseEntry A i j) x i j
        = (false, x)) ∧
    (∀ (E : Type) (A : DenseMat E) (x : E) (i j : Nat),
      (TransposeMatrix.ops (DenseMat.ops E)).eraseEntry A i j = A ∧
      (TransposeMatrix.ops (DenseMat.ops E)).getEntry
        ((TransposeMatrix.ops (DenseMat.ops E)).eraseEntry A i j) x i j
        = (TransposeMatrix.ops (DenseMat.ops E)).getEntry A x i j) := by
  refine ⟨rfl, rfl, rfl, rfl, fun σ E R C M s i j => rfl, ?_, ?_⟩
  · intro E A x i j
    exact SparseMat.getEntry_after_erase A x j i
  · intro E A x i j
    exact ⟨rfl, rfl⟩

/-- C5: the declared capability category of the view is the complement
of the category of the wrapped matrix — row-only maps to column-only,
column-only maps to row-only, row-and-column maps to itself, and
unspecified maps to unspecified — so applying the mapping twice
(wrapping a view in a second view) recovers the original category. -/
theorem transpose_category_complement :
    TransposeMatrix.category .RowMatrixTag = .ColMatrixTag ∧
    TransposeMatrix.category .ColMatrixTag = .RowMatrixTag ∧
    TransposeMatrix.category .RowColMatrixTag = .RowColMatrixTag ∧
    TransposeMatrix.category .Unspecified = .Unspecified ∧
    ∀ c : MatrixCategory,
      TransposeMatrix.category (TransposeMatrix.category c) = c := by
  refine ⟨rfl, rfl, rfl, rfl, fun c => ?_⟩
  cases c <;> rfl

/-- C6: for every wrapped-matrix category, the view variant declares row
iteration exactly when a wrapped matrix of that category exposes column
iteration, and declares column iteration exactly when the wrapped matrix
exposes row iteration; in particular the variant over a row-only matrix
declares only column iteration, the variant over a column-only matrix
declares only row iteration, and no variant claims an iteration
capability its wrapped matrix lacks. -/
theorem transpose_capability_complement (c : MatrixCategory) :
    (TransposeMatrix.surface c).hasRowIter = categoryHasColIter c ∧
    (TransposeMatrix.surface c).hasColIter = categoryHasRowIter c := by
  cases c <;> exact ⟨rfl, rfl⟩

/-- C7: for every wrapped matrix and every state, the sequence of row
vectors traversed from `view.rowBegin ()` to `view.rowEnd ()` is equal,
vector for vector and in the same order, to the sequence of column
vectors traversed from `wrapped.colBegin ()` to `wrapped.colEnd ()`,
and symmetrically the column-iteration sequence of the view equals the
row-iteration sequence of the wrapped matrix. -/
theorem transpose_iteration_sequences (M : MatrixArchetype σ E R C) (s : σ) :
    (TransposeMatrix.ops M).rows s = M.cols s ∧
    (TransposeMatrix.ops M).cols s = M.rows s :=
  ⟨rfl, rfl⟩

/-- C8: for every wrapped matrix and every state, the raw indexed
iteration obtained through the view yields exactly the sequence the
wrapped matrix yields — each element reporting its row index and column
index in the coordinate frame of the wrapped matrix, not swapped into
the frame of the view — and likewise the plain raw iteration is
delegated unchanged. -/
theorem transpose_rawIndexed_unswapped (M : MatrixArchetype σ E R C) (s : σ) :
    (TransposeMatrix.ops M).rawIndexed s = M.rawIndexed s ∧
    (TransposeMatrix.ops M).raw s = M.raw s :=
  ⟨rfl, rfl⟩

/-- C9: in every capability variant, for all valid indices i, j,
whenever the wrapped read leaves its out-parameter unmodified on
absence, a `view.getEntry (x, i, j)` that returns false also leaves `x`
unmodified; absence is signalled solely through this boolean result (the
read returns a plain boolean and value pair, no distinct error of the
view exists). -/
theorem transpose_getEntry_absent_preserves (c : MatrixCategory)
    (M : MatrixArchetype σ E R C) (s : σ) (x : E) (i j : Nat)
    (hi : i < TransposeMatrix.rowdim c M s)
    (hj : j < TransposeMatrix.coldim c M s)
    (hM : (M.getEntry s x j i).1 = false → (M.getEntry s x j i).2 = x)
    (habs : (TransposeMatrix.getEntry c M s x i j).1 = false) :
    (TransposeMatrix.getEntry c M s x i j).2 = x := by
  cases c <;> exact hM habs

/-- Witness for C9 at the concrete spec scenario: reading entry (0, 1)
through the view returns false, since wrapped entry (1, 0) is absent,
and the out-parameter keeps its prior value 42. -/
theorem transpose_getEntry_absent_preserves_witness :
    (TransposeMatrix.getEntry .Unspecified (SparseMat.ops Nat)
      specScenario 42 0 1).2 = 42 :=
  transpose_getEntry_absent_preserves .Unspecified (SparseMat.ops Nat)
    specScenario 42 0 1 (by decide) (by decide) (by decide) (by decide)

/-- C10: a view copy made with the copy constructor references the same
underlying matrix object rather than a copy of it: the copy is the very
same view value, reads through the copy agree with reads through the
original view, and, whenever the wrapped matrix reads back what was
last written, a `setEntry (i, j, v)` performed through the copy is
subsequently visible through the original view at (i, j) and through
the underlying matrix object itself at (j, i). -/
theorem view_copy_shares_underlying (M : MatrixArchetype σ E R C)
    (a : Nat) (st : Store σ) (x : E) (i j : Nat) (v : E)
    (_hi : i < M.coldim (st a)) (_hj : j < M.rowdim (st a))
    (hM : M.getEntry (M.setEntry (st a) j i v) x j i = (true, v)) :
    (View.ofMatrix a).copy = View.ofMatrix a ∧
    ((View.ofMatrix a).copy).getEntry M st x i j
      = (View.ofMatrix a).getEntry M st x i j ∧
    (View.ofMatrix a).getEntry M
      (((View.ofMatrix a).copy).setEntry M st i j v) x i j = (true, v) ∧
    M.getEntry ((((View.ofMatrix a).copy).setEntry M st i j v) a) x j i
      = (true, v) := by
  refine ⟨rfl, rfl, ?_, ?_⟩ <;>
    simpa [View.getEntry, View.setEntry, View.copy, View.ofMatrix] using hM

/-- Witness for C10 at the concrete spec scenario, the matrix stored at
address 0: writing value 9 at (0, 1) through a copy of the view is
visible through the original view at (0, 1) and through the stored
matrix at (1, 0). -/
theorem view_copy_shares_underlying_witness :
    (View.ofMatrix 0).copy = View.ofMatrix 0 ∧
    ((View.ofMatrix 0).copy).getEntry (SparseMat.ops Nat)
      (fun _ => specScenario) 3 0 1
      = (View.ofMatrix 0).getEntry (SparseMat.ops Nat)
        (fun _ => specScenario) 3 0 1 ∧
    (View.ofMatrix 0).getEntry (SparseMat.ops Nat)
      (((View.ofMatrix 0).copy).setEntry (SparseMat.ops Nat)
        (fun _ => specScenario) 0 1 9) 3 0 1 = (true, 9) ∧
    (SparseMat.ops Nat).getEntry
      ((((View.ofMatrix 0).copy).setEntry (SparseMat.ops Nat)
        (fun _ => specScenario) 0 1 9) 0) 3 1 0 = (true, 9) :=
  view_copy_shares_underlying (SparseMat.ops Nat) 0 (fun _ => specScenario)
    3 0 1 9 (by decide) (by decide) (by decide)

end LinBox
